import Mathlib

/-!
Verification of the OpenSCAD MCP server's core subsystems, shallowly
embedded in Lean: the library-path sandbox (`openscad_runner.py`), library
root discovery, the camera-framing computation, the seven-view render-matrix
loop, and the scad-script read/write round trip (`server.py`).

Paths are modelled POSIX-style as an absolute flag plus the list of
slash-separated components; the filesystem is an oracle function supplied to
each operation, mirroring the points where the Python code consults
`os.path.exists`.
-/

namespace OpenSCADMCP

/-- A POSIX-style path as manipulated by `os.path`: `absolute` mirrors a
leading slash, `comps` the slash-separated components (empty components are
not stored). -/
structure PyPath where
  absolute : Bool
  comps : List String
deriving DecidableEq

/-- Embedding of `os.path.join a b` (POSIX): an absolute second argument
replaces the first, otherwise the components are concatenated. -/
def joinPath (a b : PyPath) : PyPath :=
  if b.absolute then b else ⟨a.absolute, a.comps ++ b.comps⟩

/-- The component-processing loop of `posixpath.normpath`: drops empty and
current-directory components, resolves a parent-directory component against
the accumulated stack (dropping it at the root of an absolute path, keeping
it at the head of a relative path). The accumulator is kept reversed. -/
def normComps (absolute : Bool) : List String → List String → List String
  | acc, [] => acc.reverse
  | acc, c :: cs =>
    if c = "" ∨ c = "." then normComps absolute acc cs
    else if c = ".." then
      match acc with
      | [] => if absolute then normComps absolute [] cs
              else normComps absolute [".."] cs
      | t :: rest =>
        if t = ".." then normComps absolute (".." :: t :: rest) cs
        else normComps absolute rest cs
    else normComps absolute (c :: acc) cs

/-- Embedding of `posixpath.normpath`. -/
def normPath (p : PyPath) : PyPath :=
  ⟨p.absolute, normComps p.absolute [] p.comps⟩

/-- Embedding of `os.path.abspath p` run with current working directory
`cwd`: `normpath(join(cwd, p))`. -/
def abspath (cwd p : PyPath) : PyPath :=
  normPath (joinPath cwd p)

/-- Drops empty and current-directory components, as
`posixpath.commonpath` does before comparing component lists. -/
def stripDots (l : List String) : List String :=
  l.filter (fun c => !(c = "" || c = "."))

/-- Longest common component-list prefix, the core of
`posixpath.commonpath`. -/
def commonComps : List String → List String → List String
  | a :: as, b :: bs => if a = b then a :: commonComps as bs else []
  | _, [] => []
  | [], _ => []

/-- Embedding of `os.path.commonpath([a, b])` (POSIX, two arguments): raises
`ValueError` when one path is absolute and the other relative, otherwise
returns the longest common path prefix of the two. -/
def commonpath2 (a b : PyPath) : Except String PyPath :=
  if a.absolute = b.absolute then
    .ok ⟨a.absolute, commonComps (stripDots a.comps) (stripDots b.comps)⟩
  else
    .error "Cannot mix absolute and relative paths"

/-- The root loop of `OpenSCADRunner.is_path_safe`: for each allowed library
root, compare `commonpath([lib_path, target_path])` with `lib_path`; a raised
error propagates out of the loop. -/
def safeLoop (t : PyPath) : List PyPath → Except String Bool
  | [] => .ok false
  | lib :: rest =>
    match commonpath2 lib t with
    | .error e => .error e
    | .ok c => if c = lib then .ok true else safeLoop t rest

/-- The `try`/`except` wrapper of `is_path_safe`: an error anywhere in the
loop yields `False`. -/
def safeResult (t : PyPath) (roots : List PyPath) : Bool :=
  match safeLoop t roots with
  | .error _ => false
  | .ok b => b

/-- Embedding of `OpenSCADRunner.is_path_safe(target)`: the target is first
canonicalized with `os.path.abspath`, then checked against each allowed
library root, fail-closed on errors. -/
def is_path_safe (roots : List PyPath) (cwd target : PyPath) : Bool :=
  safeResult (abspath cwd target) roots

/-- The root loop of `OpenSCADRunner.resolve_library_path` for a relative
candidate: join the candidate onto each root in turn; the first joined path
that exists on disk (oracle `ex`) and passes `is_path_safe` is returned in
`os.path.abspath` form. -/
def resolveLoop (allRoots : List PyPath) (cwd : PyPath) (ex : PyPath → Bool)
    (path : PyPath) : List PyPath → Option PyPath
  | [] => none
  | lib :: rest =>
    let candidate := joinPath lib path
    if ex candidate then
      if is_path_safe allRoots cwd candidate then some (abspath cwd candidate)
      else resolveLoop allRoots cwd ex path rest
    else resolveLoop allRoots cwd ex path rest

/-- Embedding of `OpenSCADRunner.resolve_library_path(path)`: an absolute
candidate is returned unchanged when `is_path_safe` accepts it (no existence
check); a relative candidate is tried against each library root. -/
def resolve_library_path (roots : List PyPath) (cwd : PyPath)
    (ex : PyPath → Bool) (path : PyPath) : Option PyPath :=
  if path.absolute then
    if is_path_safe roots cwd path then some path else none
  else
    resolveLoop roots cwd ex path roots

/-- The platform families distinguished by `platform.system()` in
`get_library_paths`. -/
inductive Platform where
  | windows
  | linux
  | darwin
  | other
deriving DecidableEq

/-- The filesystem facts the embedded operations consult: `pathExists`
mirrors `os.path.exists`, `isDir` mirrors `os.path.isdir` (recorded so that
claims about directories can be stated; the code itself only ever calls
`os.path.exists`). -/
structure FS where
  pathExists : PyPath → Bool
  isDir : PyPath → Bool

/-- The candidate list built by `OpenSCADRunner.get_library_paths` before
filtering: the configured override directory (appended in `os.path.abspath`
form when `os.path.exists` accepts the raw value), followed by the
platform-conventional library directories (always appended, `abspath`-ed,
with `~` already expanded into `home`). -/
def libraryCandidates (cwd : PyPath) (env : Option PyPath) (home : PyPath)
    (plat : Platform) (fs : FS) : List PyPath :=
  (match env with
   | none => []
   | some e => if fs.pathExists e then [abspath cwd e] else []) ++
  (match plat with
   | .windows => [abspath cwd (joinPath home ⟨false, ["Documents", "OpenSCAD", "libraries"]⟩)]
   | .linux => [abspath cwd (joinPath home ⟨false, [".local", "share", "OpenSCAD", "libraries"]⟩),
                abspath cwd ⟨true, ["usr", "share", "openscad", "libraries"]⟩]
   | .darwin => [abspath cwd (joinPath home ⟨false, ["Documents", "OpenSCAD", "libraries"]⟩)]
   | .other => [])

/-- Embedding of `OpenSCADRunner.get_library_paths`: the candidates that
exist on disk, deduplicated (`list(set(...))` in the source; the set is
represented here by the duplicate-free list keeping first occurrences, since
every claim about the result is set-level). -/
def get_library_paths (cwd : PyPath) (env : Option PyPath) (home : PyPath)
    (plat : Platform) (fs : FS) : List PyPath :=
  ((libraryCandidates cwd env home plat fs).filter fs.pathExists).dedup

/-- Helper for `resolveSymlinks`: walks the components left to right,
replacing the accumulated path by the link target whenever the accumulated
path is a symlink. -/
def resolveSymlinksGo (links : List (PyPath × PyPath)) :
    PyPath → List String → PyPath
  | acc, [] => acc
  | acc, c :: cs =>
    let step : PyPath := ⟨acc.absolute, acc.comps ++ [c]⟩
    match links.find? (fun l => decide (l.1 = step)) with
    | some l => resolveSymlinksGo links l.2 cs
    | none => resolveSymlinksGo links step cs

/-- Modelled from the spec: the missing canonicalization step the spec calls
"symlink-resolved". The repository never calls `os.path.realpath`; this
definition models POSIX symlink resolution over a table of links (each link
target assumed already canonical) so that the spec's containment-on-the
symlink-resolved-form requirement can be compared with what the code
actually checks. -/
def resolveSymlinks (links : List (PyPath × PyPath)) (p : PyPath) : PyPath :=
  resolveSymlinksGo links ⟨p.absolute, []⟩ p.comps

/-- One renderer invocation as `OpenSCADRunner.run` reports it:
`(returncode == 0, stdout, stderr)`. -/
structure RunOutcome where
  success : Bool
  stdout : String
  stderr : String

/-- The fixed view table of `render_views_matrix`, in the source's
(insertion-ordered) dictionary order. -/
def viewsList : List (String × Int × Int × Int) :=
  [("Top", 0, 0, 0), ("Bottom", 180, 0, 0), ("Front", 90, 0, 0),
   ("Back", 270, 0, 0), ("Left", 90, 0, 90), ("Right", 90, 0, 270),
   ("Isometric", 60, 0, 45)]

/-- The per-view loop of `render_views_matrix`, with the renderer modelled
as an oracle from the invocation index to its outcome. Returns the names of
the views actually rendered (one renderer invocation each, in order) and,
when a view fails, that view's name and stderr; a failure ends the loop at
once. -/
def renderLoop (run : Nat → RunOutcome) :
    Nat → List (String × Int × Int × Int) → List String × Option (String × String)
  | _, [] => ([], none)
  | k, (name, _, _, _) :: rest =>
    if (run k).success then
      let r := renderLoop run (k + 1) rest
      (name :: r.1, r.2)
    else
      ([name], some (name, (run k).stderr))

/-- The invocation trace of `render_views_matrix` over its view table. -/
def render_views_matrix_trace (run : Nat → RunOutcome) :
    List String × Option (String × String) :=
  renderLoop run 0 viewsList

/-- The outcome of `render_views_matrix`: on any view failure the function
returns the error message built from the failing view's name and stderr and
produces no composite image; otherwise the composite is produced. -/
def render_views_matrix_outcome (run : Nat → RunOutcome) : Except String Unit :=
  match (render_views_matrix_trace run).2 with
  | some nameErr =>
    .error ("Failed to render view " ++ nameErr.1 ++ ".\nError Output:\n" ++ nameErr.2)
  | none => .ok ()

/-- What `calculate_camera_parameters` learns from its STL export step:
the export invocation failed, loading or analyzing the STL raised, or the
mesh was loaded with the given vertices (the empty list is the
`points.size == 0` case). -/
inductive MeshResult where
  | exportFailed
  | analysisError
  | meshData (vertices : List (ℝ × ℝ × ℝ))

/-- Minimum of a coordinate over a nonempty vertex list, as
`numpy.min` computes it. -/
noncomputable def foldMin (f : ℝ × ℝ × ℝ → ℝ) (v : ℝ × ℝ × ℝ)
    (vs : List (ℝ × ℝ × ℝ)) : ℝ :=
  vs.foldl (fun a w => min a (f w)) (f v)

/-- Maximum of a coordinate over a nonempty vertex list, as
`numpy.max` computes it. -/
noncomputable def foldMax (f : ℝ × ℝ × ℝ → ℝ) (v : ℝ × ℝ × ℝ)
    (vs : List (ℝ × ℝ × ℝ)) : ℝ :=
  vs.foldl (fun a w => max a (f w)) (f v)

/-- The bounding-box diagonal of a nonempty mesh:
`sqrt(width² + depth² + height²)`. -/
noncomputable def meshDiagonal (v : ℝ × ℝ × ℝ) (vs : List (ℝ × ℝ × ℝ)) : ℝ :=
  Real.sqrt ((foldMax (fun p => p.1) v vs - foldMin (fun p => p.1) v vs) ^ 2 +
    (foldMax (fun p => p.2.1) v vs - foldMin (fun p => p.2.1) v vs) ^ 2 +
    (foldMax (fun p => p.2.2) v vs - foldMin (fun p => p.2.2) v vs) ^ 2)

/-- Embedding of `calculate_camera_parameters` (`server.py`): export failure,
analysis errors and the empty mesh give the neutral default `(0,0,0,500)`;
otherwise the bounding-box center and the distance `diagonal * 2.5`, with
`100` when the diagonal is exactly zero. Reals stand in for the source's
floating-point numbers. -/
noncomputable def calculate_camera_parameters (m : MeshResult) : ℝ × ℝ × ℝ × ℝ :=
  match m with
  | .exportFailed => (0, 0, 0, 500)
  | .analysisError => (0, 0, 0, 500)
  | .meshData [] => (0, 0, 0, 500)
  | .meshData (v :: vs) =>
    let cx := (foldMin (fun p => p.1) v vs + foldMax (fun p => p.1) v vs) / 2
    let cy := (foldMin (fun p => p.2.1) v vs + foldMax (fun p => p.2.1) v vs) / 2
    let cz := (foldMin (fun p => p.2.2) v vs + foldMax (fun p => p.2.2) v vs) / 2
    let diagonal := meshDiagonal v vs
    let dist := if diagonal = 0 then 100 else diagonal * 2.5
    (cx, cy, cz, dist)

/-- The distance component of a camera parameter tuple. -/
noncomputable def calcDist (m : MeshResult) : ℝ :=
  (calculate_camera_parameters m).2.2.2

/-- The camera tuple `render_preview` passes in its `--camera=` argument,
or `none` when no camera argument is emitted: a camera argument is built
exactly when some rotation or the distance was supplied by the caller;
missing rotations default to `(60, 0, 135)` and a missing distance to the
computed one. -/
noncomputable def render_preview_camera (m : MeshResult)
    (rx? ry? rz? d? : Option ℝ) : Option (ℝ × ℝ × ℝ × ℝ × ℝ × ℝ × ℝ) :=
  if rx?.isSome || ry?.isSome || rz?.isSome || d?.isSome then
    let c := calculate_camera_parameters m
    some (c.1, c.2.1, c.2.2.1, rx?.getD 60, ry?.getD 0, rz?.getD 135,
      d?.getD c.2.2.2)
  else
    none

/-- The distance component of the camera tuple emitted by
`render_preview`. -/
def camDist (t : ℝ × ℝ × ℝ × ℝ × ℝ × ℝ × ℝ) : ℝ :=
  t.2.2.2.2.2.2

/-- The camera distance `render_views_matrix` uses for all seven views: the
caller's value if supplied, else the computed one. -/
noncomputable def render_views_matrix_dist (m : MeshResult) (d? : Option ℝ) : ℝ :=
  d?.getD (calculate_camera_parameters m).2.2.2

/-- Contiguous-sublist test, embedding Python's `pat in s` on strings. -/
def containsSub (pat : List Char) : List Char → Bool
  | [] => decide (pat = [])
  | c :: cs => pat.isPrefixOf (c :: cs) || containsSub pat cs

/-- The filename fixup shared by the scad-script tools: append `.scad`
unless already present (`filename.endswith(".scad")` on the character
list). -/
def fixName (f : List Char) : List Char :=
  if ".scad".toList.isSuffixOf f then f else f ++ ".scad".toList

/-- Split a character list at every slash, keeping empty segments, as
splitting a POSIX path string on `/` does. -/
def splitSlash : List Char → List (List Char)
  | [] => [[]]
  | c :: cs =>
    let r := splitSlash cs
    if c = '/' then [] :: r
    else
      match r with
      | [] => [[c]]
      | w :: ws => (c :: w) :: ws

/-- Embedding of `os.path.isabs` (POSIX): the string starts with a slash. -/
def isAbsStr : List Char → Bool
  | [] => false
  | c :: _ => c = '/'

/-- Parse a POSIX path string (as characters) into the structured form: a
leading slash makes it absolute; empty components are dropped. -/
def parsePath (s : List Char) : PyPath :=
  ⟨isAbsStr s, ((splitSlash s).map (fun w => String.mk w)).filter (fun c => !(c = ""))⟩

/-- A file store keyed by canonical absolute path, holding the raw bytes of
each file (as characters: the scripts are utf-8 text). -/
def Store : Type := PyPath → Option (List Char)

/-- Store update: the write target gets the new bytes. -/
def setStore (st : Store) (k : PyPath) (v : List Char) : Store :=
  fun p => if p = k then some v else st p

/-- The newline translation Python's text-mode `open(..., "w")` applies with
the default `newline=None`: every `\n` becomes `os.linesep`. -/
def encodeNewlines (linesep : List Char) (content : List Char) : List Char :=
  (content.map (fun c => if c = '\n' then linesep else [c])).flatten

/-- The universal-newlines translation Python's text-mode `open(..., "r")`
applies with the default `newline=None`: `\r\n` and lone `\r` both become
`\n`. -/
def universalNewlines : List Char → List Char
  | [] => []
  | c :: rest =>
    if c = '\r' then
      match rest with
      | [] => ['\n']
      | d :: rest2 =>
        if d = '\n' then '\n' :: universalNewlines rest2
        else '\n' :: universalNewlines (d :: rest2)
    else c :: universalNewlines rest

/-- Embedding of the `write_scad_script` tool: fix the filename up to end in
`.scad`; when it contains `..` or is absolute, require
`commonpath([cwd, abspath(filename)]) == cwd` (errors rejecting); then write
the newline-encoded content. Returns the new store and whether the write
happened. -/
def write_scad_script (linesep : List Char) (cwd : PyPath) (st : Store)
    (filename0 : List Char) (content : List Char) : Store × Bool :=
  let filename := fixName filename0
  let key := abspath cwd (parsePath filename)
  if containsSub "..".toList filename || isAbsStr filename then
    match commonpath2 cwd key with
    | .error _ => (st, false)
    | .ok c =>
      if c = cwd then (setStore st key (encodeNewlines linesep content), true)
      else (st, false)
  else
    (setStore st key (encodeNewlines linesep content), true)

/-- Embedding of the `read_scad_script` tool: fix the filename up, report an
error when the file does not exist, otherwise return its bytes through the
universal-newlines translation. -/
def read_scad_script (cwd : PyPath) (st : Store) (filename0 : List Char) :
    Except String (List Char) :=
  let filename := fixName filename0
  let key := abspath cwd (parsePath filename)
  match st key with
  | none => .error ("Error: File " ++ String.mk filename ++ " does not exist in working directory.")
  | some bytes => .ok (universalNewlines bytes)

/-- A filesystem for the counterexamples: a single existing entry that is
not a directory. -/
def fileOnlyFS : FS :=
  ⟨fun p => decide (p = ⟨true, ["data", "libfile"]⟩), fun _ => false⟩

theorem commonComps_eq_left (a b : List String) : commonComps a b = a ↔ a <+: b := by
  induction a generalizing b with
  | nil => cases b <;> simp [commonComps]
  | cons x xs ih =>
    cases b with
    | nil => simp [commonComps]
    | cons y ys =>
      by_cases hxy : x = y
      · subst hxy
        simp [commonComps, ih]
      · simp [commonComps, hxy]

theorem normComps_nil (ab : Bool) (acc : List String) :
    normComps ab acc [] = acc.reverse := by
  simp [normComps]

theorem normComps_skip (ab : Bool) (acc : List String) (d : String)
    (ds : List String) (hd : d = "" ∨ d = ".") :
    normComps ab acc (d :: ds) = normComps ab acc ds := by
  rcases hd with h | h <;> subst h <;> (rw [normComps.eq_def]; simp)

theorem normComps_up (ab : Bool) (acc : List String) (ds : List String) :
    normComps ab acc (".." :: ds) =
      match acc with
      | [] => if ab then normComps ab [] ds else normComps ab [".."] ds
      | t :: rest =>
        if t = ".." then normComps ab (".." :: t :: rest) ds
        else normComps ab rest ds := by
  rw [normComps.eq_def]
  simp

theorem normComps_push (ab : Bool) (acc : List String) (d : String)
    (ds : List String) (hd : ¬(d = "" ∨ d = ".")) (hdd : ¬ d = "..") :
    normComps ab acc (d :: ds) = normComps ab (d :: acc) ds := by
  rw [normComps.eq_def]
  simp [hd, hdd]

theorem normComps_noDots (ab : Bool) (cs : List String) :
    ∀ acc : List String, (∀ c ∈ acc, ¬(c = "" ∨ c = ".")) →
      ∀ c ∈ normComps ab acc cs, ¬(c = "" ∨ c = ".") := by
  induction cs with
  | nil =>
    intro acc hacc c hc
    rw [normComps_nil] at hc
    exact hacc c (List.mem_reverse.mp hc)
  | cons d ds ih =>
    intro acc hacc c hc
    by_cases hd : d = "" ∨ d = "."
    · rw [normComps_skip ab acc d ds hd] at hc
      exact ih acc hacc c hc
    · by_cases hdd : d = ".."
      · subst hdd
        rw [normComps_up] at hc
        cases acc with
        | nil =>
          have hc2 : c ∈ (if ab = true then normComps ab [] ds else normComps ab [".."] ds) := hc
          cases ab with
          | true =>
            rw [if_pos rfl] at hc2
            exact ih [] (by simp) c hc2
          | false =>
            rw [if_neg (by simp)] at hc2
            refine ih [".."] ?_ c hc2
            intro e he
            simp only [List.mem_singleton] at he
            subst he
            decide
        | cons t rest =>
          have hc2 : c ∈ (if t = ".." then normComps ab (".." :: t :: rest) ds
              else normComps ab rest ds) := hc
          by_cases ht : t = ".."
          · rw [if_pos ht] at hc2
            refine ih (".." :: t :: rest) ?_ c hc2
            intro e he
            rcases List.mem_cons.mp he with h1 | h2
            · subst h1; decide
            · exact hacc e h2
          · rw [if_neg ht] at hc2
            exact ih rest (fun e he => hacc e (List.mem_cons_of_mem _ he)) c hc2
      · rw [normComps_push ab acc d ds hd hdd] at hc
        refine ih (d :: acc) ?_ c hc
        intro e he
        rcases List.mem_cons.mp he with h1 | h2
        · subst h1; exact hd
        · exact hacc e h2

theorem stripDots_abspath (cwd p : PyPath) :
    stripDots (abspath cwd p).comps = (abspath cwd p).comps := by
  apply List.filter_eq_self.mpr
  intro c hc
  have h := normComps_noDots (joinPath cwd p).absolute (joinPath cwd p).comps []
    (by simp) c hc
  push_neg at h
  simp [h.1, h.2]

theorem abspath_absolute (cwd p : PyPath) (h : cwd.absolute = true) :
    (abspath cwd p).absolute = true := by
  cases hp : p.absolute <;> simp [abspath, normPath, joinPath, hp, h]

theorem safeResult_iff (t : PyPath) (ht : t.absolute = true)
    (htd : stripDots t.comps = t.comps) :
    ∀ roots : List PyPath,
      (∀ r ∈ roots, r.absolute = true ∧ stripDots r.comps = r.comps) →
      (safeResult t roots = true ↔ ∃ r ∈ roots, r.comps <+: t.comps) := by
  intro roots
  induction roots with
  | nil => intro _; simp [safeResult, safeLoop]
  | cons lib rest ih =>
    intro hroots
    have hrest := fun r hr => hroots r (List.mem_cons_of_mem _ hr)
    obtain ⟨labs, lcomps⟩ := lib
    obtain ⟨hla, hld⟩ := hroots ⟨labs, lcomps⟩ (List.mem_cons_self _ _)
    simp only at hla hld
    subst hla
    have hcp : commonpath2 ⟨true, lcomps⟩ t = .ok ⟨true, commonComps lcomps t.comps⟩ := by
      rw [commonpath2, if_pos (by simp [ht])]
      simp only
      rw [show stripDots lcomps = lcomps from hld, htd]
    by_cases heq : commonComps lcomps t.comps = lcomps
    · constructor
      · intro _
        exact ⟨⟨true, lcomps⟩, List.mem_cons_self _ _, (commonComps_eq_left _ _).mp heq⟩
      · intro _
        simp [safeResult, safeLoop, hcp, heq]
    · have hnp : ¬ lcomps <+: t.comps := fun hp => heq ((commonComps_eq_left _ _).mpr hp)
      have hstep : safeResult t (⟨true, lcomps⟩ :: rest) = safeResult t rest := by
        simp only [safeResult, safeLoop, hcp]
        rw [if_neg (by simp [heq])]
      rw [hstep, ih hrest]
      constructor
      · rintro ⟨r, hr, hpre⟩
        exact ⟨r, List.mem_cons_of_mem _ hr, hpre⟩
      · rintro ⟨r, hr, hpre⟩
        rcases List.mem_cons.mp hr with h1 | h2
        · subst h1; exact absurd hpre hnp
        · exact ⟨r, h2, hpre⟩

theorem is_path_safe_iff (roots : List PyPath) (cwd target : PyPath)
    (hcwd : cwd.absolute = true)
    (hroots : ∀ r ∈ roots, r.absolute = true ∧ stripDots r.comps = r.comps) :
    is_path_safe roots cwd target = true ↔
      ∃ r ∈ roots, r.comps <+: (abspath cwd target).comps :=
  safeResult_iff (abspath cwd target) (abspath_absolute cwd target hcwd)
    (stripDots_abspath cwd target) roots hroots

theorem resolveLoop_exists (allRoots : List PyPath) (cwd : PyPath)
    (ex : PyPath → Bool) (p : PyPath) :
    ∀ (l : List PyPath) (q : PyPath), resolveLoop allRoots cwd ex p l = some q →
      ∃ r ∈ l, ex (joinPath r p) = true := by
  intro l
  induction l with
  | nil => intro q h; simp [resolveLoop] at h
  | cons lib rest ih =>
    intro q h
    simp only [resolveLoop] at h
    by_cases hex : ex (joinPath lib p) = true
    · exact ⟨lib, List.mem_cons_self _ _, hex⟩
    · rw [if_neg (by simpa using hex)] at h
      obtain ⟨r, hr, hre⟩ := ih q h
      exact ⟨r, List.mem_cons_of_mem _ hr, hre⟩

theorem renderLoop_all (run : Nat → RunOutcome) :
    ∀ (l : List (String × Int × Int × Int)) (k : Nat),
      (∀ i, i < l.length → (run (k + i)).success = true) →
      renderLoop run k l = (l.map (fun v => v.1), none) := by
  intro l
  induction l with
  | nil => intro k _; simp [renderLoop]
  | cons v rest ih =>
    intro k h
    obtain ⟨name, r1, r2, r3⟩ := v
    have h0 : (run k).success = true := by simpa using h 0 (by simp)
    have hrec : renderLoop run (k + 1) rest = (rest.map (fun v => v.1), none) := by
      refine ih (k + 1) ?_
      intro i hi
      have hidx : k + 1 + i = k + (i + 1) := by omega
      rw [hidx]
      exact h (i + 1) (by simpa using Nat.succ_lt_succ hi)
    simp [renderLoop, h0, hrec]

theorem renderLoop_fail (run : Nat → RunOutcome) :
    ∀ (l : List (String × Int × Int × Int)) (k j : Nat), j < l.length →
      (∀ i, i < j → (run (k + i)).success = true) →
      (run (k + j)).success = false →
      renderLoop run k l = ((l.map (fun v => v.1)).take (j + 1),
        some ((l.map (fun v => v.1)).getD j "", (run (k + j)).stderr)) := by
  intro l
  induction l with
  | nil => intro k j hj _ _; simp at hj
  | cons v rest ih =>
    intro k j hj hs hf
    obtain ⟨name, r1, r2, r3⟩ := v
    cases j with
    | zero =>
      have h0 : (run k).success = false := by simpa using hf
      simp [renderLoop, h0]
    | succ j' =>
      have h0 : (run k).success = true := by simpa using hs 0 (Nat.succ_pos _)
      have hrec := ih (k + 1) j' (by simpa using Nat.lt_of_succ_lt_succ hj)
        (fun i hi => by
          have hidx : k + 1 + i = k + (i + 1) := by omega
          rw [hidx]
          exact hs (i + 1) (Nat.succ_lt_succ hi))
        (by
          have hidx : k + 1 + j' = k + (j' + 1) := by omega
          rw [hidx]
          exact hf)
      have hidx : k + 1 + j' = k + (j' + 1) := by omega
      rw [hidx] at hrec
      simp [renderLoop, h0, hrec]

theorem calcDist_pos (m : MeshResult) : 0 < calcDist m := by
  cases m with
  | exportFailed => norm_num [calcDist, calculate_camera_parameters]
  | analysisError => norm_num [calcDist, calculate_camera_parameters]
  | meshData vs =>
    cases vs with
    | nil => norm_num [calcDist, calculate_camera_parameters]
    | cons v vs =>
      simp only [calcDist, calculate_camera_parameters]
      by_cases hd : meshDiagonal v vs = 0
      · rw [if_pos hd]
        norm_num
      · rw [if_neg hd]
        have h0 : 0 ≤ meshDiagonal v vs := Real.sqrt_nonneg _
        have h1 : 0 < meshDiagonal v vs := lt_of_le_of_ne h0 (Ne.symm hd)
        nlinarith

theorem encodeNewlines_cons (linesep : List Char) (c : Char) (cs : List Char) :
    encodeNewlines linesep (c :: cs) =
      (if c = '\n' then linesep else [c]) ++ encodeNewlines linesep cs := by
  simp [encodeNewlines]

theorem universalNewlines_safe_cons (c : Char) (cs : List Char) (hc : ¬ c = '\r') :
    universalNewlines (c :: cs) = c :: universalNewlines cs := by
  rw [universalNewlines.eq_def]
  simp [hc]

theorem universalNewlines_crlf (cs : List Char) :
    universalNewlines ('\r' :: '\n' :: cs) = '\n' :: universalNewlines cs := by
  rw [universalNewlines.eq_def]
  simp

theorem universal_encode (linesep : List Char)
    (hl : linesep = ['\n'] ∨ linesep = ['\r', '\n']) :
    ∀ content : List Char, '\r' ∉ content →
      universalNewlines (encodeNewlines linesep content) = content := by
  intro content
  induction content with
  | nil => intro _; simp [encodeNewlines, universalNewlines]
  | cons c cs ih =>
    intro hc
    have hcr : ¬ c = '\r' := fun h => hc (h ▸ List.mem_cons_self _ _)
    have hcs : '\r' ∉ cs := fun h => hc (List.mem_cons_of_mem _ h)
    rw [encodeNewlines_cons]
    by_cases hn : c = '\n'
    · subst hn
      rw [if_pos rfl]
      rcases hl with h | h <;> subst h
      · rw [List.singleton_append, universalNewlines_safe_cons _ _ (by decide), ih hcs]
      · rw [List.cons_append, List.singleton_append, universalNewlines_crlf, ih hcs]
    · rw [if_neg hn, List.singleton_append, universalNewlines_safe_cons _ _ hcr, ih hcs]

/-- Claim C1 (counterexample): the claimed equivalence "resolve(p) succeeds
iff the canonicalized form of p is a descendant of some root" fails for a
relative candidate: with root `/libs` and working directory `/libs`, the
candidate `foo` canonicalizes to `/libs/foo`, a descendant of the root, yet
resolution fails because the joined path does not exist on disk. -/
theorem resolve_relative_needs_existence_cex :
    ¬ (((resolve_library_path [⟨true, ["libs"]⟩] ⟨true, ["libs"]⟩ (fun _ => false)
          ⟨false, ["foo"]⟩).isSome = true) ↔
        (⟨true, ["libs"]⟩ : PyPath).comps <+:
          (abspath ⟨true, ["libs"]⟩ ⟨false, ["foo"]⟩).comps) := by
  decide

/-- Claim C1 (amended): for an absolute candidate, `resolve_library_path`
succeeds iff the canonicalized (`..`-resolved) form of the candidate lies in
some root's subtree; a relative candidate additionally requires the
root-joined path to exist on disk; `resolve("BOSL2/../../etc/passwd")` with
the single root `/libs` fails even when every path exists, and an absolute
path under no root always fails regardless of what exists on disk. -/
theorem resolve_containment_characterization :
    (∀ (roots : List PyPath) (cwd : PyPath) (ex : PyPath → Bool) (p : PyPath),
      cwd.absolute = true →
      (∀ r ∈ roots, r.absolute = true ∧ stripDots r.comps = r.comps) →
      p.absolute = true →
      ((resolve_library_path roots cwd ex p).isSome = true ↔
        ∃ r ∈ roots, r.comps <+: (abspath cwd p).comps)) ∧
    (∀ (roots : List PyPath) (cwd : PyPath) (ex : PyPath → Bool) (p q : PyPath),
      p.absolute = false → resolve_library_path roots cwd ex p = some q →
      ∃ r ∈ roots, ex (joinPath r p) = true) ∧
    resolve_library_path [⟨true, ["libs"]⟩] ⟨true, ["work"]⟩ (fun _ => true)
      ⟨false, ["BOSL2", "..", "..", "etc", "passwd"]⟩ = none ∧
    (∀ ex : PyPath → Bool,
      resolve_library_path [⟨true, ["libs"]⟩] ⟨true, ["work"]⟩ ex
        ⟨true, ["absolute", "outside", "root"]⟩ = none) := by
  refine ⟨?_, ?_, by decide, ?_⟩
  · intro roots cwd ex p hcwd hroots hp
    rw [← is_path_safe_iff roots cwd p hcwd hroots]
    rw [resolve_library_path, if_pos hp]
    by_cases hs : is_path_safe roots cwd p = true <;> simp [hs]
  · intro roots cwd ex p q hp h
    rw [resolve_library_path, if_neg (by simp [hp])] at h
    exact resolveLoop_exists roots cwd ex p roots q h
  · intro ex
    rw [resolve_library_path, if_pos rfl, if_neg (by decide)]

/-- Claim C1 witness: the characterization applied at the root set `/libs`
and the contained absolute candidate `/libs/x`. -/
theorem resolve_containment_characterization_witness :
    (resolve_library_path [⟨true, ["libs"]⟩] ⟨true, []⟩ (fun _ => false)
      ⟨true, ["libs", "x"]⟩).isSome = true :=
  (resolve_containment_characterization.1 [⟨true, ["libs"]⟩] ⟨true, []⟩
    (fun _ => false) ⟨true, ["libs", "x"]⟩ rfl (by decide) rfl).mpr
    ⟨⟨true, ["libs"]⟩, by decide, by decide⟩

/-- Claim C2 (counterexample): the containment check is not performed on the
symlink-resolved form: with root `/libs` and the symlink
`/libs/link -> /etc`, the candidate `/libs/link/passwd` is accepted by
`is_path_safe` although its symlink-resolved canonical form `/etc/passwd`
lies under no root. -/
theorem containment_ignores_symlinks_cex :
    is_path_safe [⟨true, ["libs"]⟩] ⟨true, []⟩ ⟨true, ["libs", "link", "passwd"]⟩ = true ∧
    ¬ (⟨true, ["libs"]⟩ : PyPath).comps <+:
        (resolveSymlinks [(⟨true, ["libs", "link"]⟩, ⟨true, ["etc"]⟩)]
          (abspath ⟨true, []⟩ ⟨true, ["libs", "link", "passwd"]⟩)).comps := by
  decide

/-- Claim C2 (amended): the containment check canonicalizes both the root
and the candidate with `os.path.abspath` (absolute, `..`-resolved — symlinks
are not resolved) and accepts exactly when the longest common path prefix
equals some root itself; this is component-wise, not a lexical string-prefix
match: `/lib2/f.scad` is rejected against the root `/lib` although `/lib` is
a string prefix of it. -/
theorem containment_exact_common_ancestor :
    (∀ (roots : List PyPath) (cwd target : PyPath), cwd.absolute = true →
      (∀ r ∈ roots, r.absolute = true ∧ stripDots r.comps = r.comps) →
      (is_path_safe roots cwd target = true ↔
        ∃ r ∈ roots, r.comps <+: (abspath cwd target).comps)) ∧
    is_path_safe [⟨true, ["lib"]⟩] ⟨true, []⟩ ⟨true, ["lib2", "f.scad"]⟩ = false ∧
    "/lib".toList.isPrefixOf "/lib2/f.scad".toList = true := by
  refine ⟨?_, by decide, by decide⟩
  intro roots cwd target hcwd hroots
  exact is_path_safe_iff roots cwd target hcwd hroots

/-- Claim C2 witness: the characterization applied at root `/lib` and
candidate `/lib/sub/../f.scad`, whose canonical form `/lib/f.scad` lies in
the root's subtree. -/
theorem containment_exact_common_ancestor_witness :
    is_path_safe [⟨true, ["lib"]⟩] ⟨true, []⟩
      ⟨true, ["lib", "sub", "..", "f.scad"]⟩ = true :=
  (containment_exact_common_ancestor.1 [⟨true, ["lib"]⟩] ⟨true, []⟩
    ⟨true, ["lib", "sub", "..", "f.scad"]⟩ rfl (by decide)).mpr
    ⟨⟨true, ["lib"]⟩, by decide, by decide⟩

/-- Claim C6: any error raised inside the safety check's root loop makes
`is_path_safe` return false and, for an absolute candidate, makes
`resolve_library_path` return no path — fail-closed, never safe-by-default. -/
theorem path_safety_fail_closed (roots : List PyPath) (cwd : PyPath)
    (ex : PyPath → Bool) (p : PyPath) (e : String)
    (herr : safeLoop (abspath cwd p) roots = .error e) :
    is_path_safe roots cwd p = false ∧
    (p.absolute = true → resolve_library_path roots cwd ex p = none) := by
  have hsafe : is_path_safe roots cwd p = false := by
    rw [is_path_safe, safeResult, herr]
  refine ⟨hsafe, ?_⟩
  intro hp
  rw [resolve_library_path, if_pos hp, if_neg (by simp [hsafe])]

/-- Claim C6 witness: with a relative entry in the root list the comparison
raises (mixed absolute and relative paths), and the candidate is rejected. -/
theorem path_safety_fail_closed_witness :
    is_path_safe [⟨false, ["rel"]⟩] ⟨true, []⟩ ⟨true, ["x"]⟩ = false ∧
    resolve_library_path [⟨false, ["rel"]⟩] ⟨true, []⟩ (fun _ => true)
      ⟨true, ["x"]⟩ = none := by
  have h := path_safety_fail_closed [⟨false, ["rel"]⟩] ⟨true, []⟩ (fun _ => true)
    ⟨true, ["x"]⟩ "Cannot mix absolute and relative paths" rfl
  exact ⟨h.1, h.2 rfl⟩

/-- Claim C10: `resolve_library_path` checks existence asymmetrically — the
absolute branch never consults the filesystem, so an accepted absolute
candidate is returned even when nothing exists, while a relative candidate
is returned only when its root-joined form exists; concretely, the
nonexistent `/libs/missing/f.scad` under root `/libs` resolves while the
equivalent relative `missing/f.scad` does not. -/
theorem resolve_absolute_relative_asymmetry :
    (∀ (roots : List PyPath) (cwd : PyPath) (ex1 ex2 : PyPath → Bool) (p : PyPath),
      p.absolute = true →
      resolve_library_path roots cwd ex1 p = resolve_library_path roots cwd ex2 p) ∧
    (∀ (roots : List PyPath) (cwd : PyPath) (ex : PyPath → Bool) (p q : PyPath),
      p.absolute = false → resolve_library_path roots cwd ex p = some q →
      ∃ r ∈ roots, ex (joinPath r p) = true) ∧
    resolve_library_path [⟨true, ["libs"]⟩] ⟨true, []⟩ (fun _ => false)
      ⟨true, ["libs", "missing", "f.scad"]⟩ =
      some ⟨true, ["libs", "missing", "f.scad"]⟩ ∧
    resolve_library_path [⟨true, ["libs"]⟩] ⟨true, []⟩ (fun _ => false)
      ⟨false, ["missing", "f.scad"]⟩ = none := by
  refine ⟨?_, ?_, by decide, by decide⟩
  · intro roots cwd ex1 ex2 p hp
    rw [resolve_library_path, resolve_library_path, if_pos hp, if_pos hp]
  · intro roots cwd ex p q hp h
    rw [resolve_library_path, if_neg (by simp [hp])] at h
    exact resolveLoop_exists roots cwd ex p roots q h

/-- Claim C10 witness: the absolute branch at a concrete candidate gives the
same result under two different filesystems. -/
theorem resolve_absolute_relative_asymmetry_witness :
    resolve_library_path [⟨true, ["libs"]⟩] ⟨true, []⟩ (fun _ => false)
      ⟨true, ["libs", "a"]⟩ =
    resolve_library_path [⟨true, ["libs"]⟩] ⟨true, []⟩ (fun _ => true)
      ⟨true, ["libs", "a"]⟩ :=
  resolve_absolute_relative_asymmetry.1 [⟨true, ["libs"]⟩] ⟨true, []⟩
    (fun _ => false) (fun _ => true) ⟨true, ["libs", "a"]⟩ rfl

theorem write_store_on_success (linesep : List Char) (cwd : PyPath) (st : Store)
    (filename : List Char) (content : List Char)
    (hw : (write_scad_script linesep cwd st filename content).2 = true) :
    (write_scad_script linesep cwd st filename content).1 =
      setStore st (abspath cwd (parsePath (fixName filename)))
        (encodeNewlines linesep content) := by
  simp only [write_scad_script] at hw ⊢
  by_cases hcond : (containsSub "..".toList (fixName filename) || isAbsStr (fixName filename)) = true
  · rw [if_pos hcond] at hw ⊢
    cases h2 : commonpath2 cwd (abspath cwd (parsePath (fixName filename))) with
    | error e =>
      rw [h2] at hw
      have hw2 : (st, false).2 = true := hw
      simp at hw2
    | ok c =>
      rw [h2] at hw
      have hw2 : (if c = cwd then
          (setStore st (abspath cwd (parsePath (fixName filename)))
            (encodeNewlines linesep content), true)
          else (st, false)).2 = true := hw
      show (if c = cwd then
          (setStore st (abspath cwd (parsePath (fixName filename)))
            (encodeNewlines linesep content), true)
          else (st, false)).1 = _
      by_cases hcc : c = cwd
      · rw [if_pos hcc]
      · rw [if_neg hcc] at hw2
        simp at hw2
  · rw [if_neg hcond] at hw ⊢

/-- Claim C3: `render_views_matrix` performs one renderer invocation per
view, in the fixed order Top, Bottom, Front, Back, Left, Right, Isometric —
exactly seven when all succeed — and when the view at index `j` fails the
loop stops with exactly `j+1` invocations, the composite is not produced,
and the failing view's stderr is surfaced in the returned error. -/
theorem render_matrix_order_and_abort (run : Nat → RunOutcome) :
    ((∀ i, i < 7 → (run i).success = true) →
      render_views_matrix_trace run =
        (["Top", "Bottom", "Front", "Back", "Left", "Right", "Isometric"], none) ∧
      render_views_matrix_outcome run = .ok ()) ∧
    (∀ j, j < 7 → (∀ i, i < j → (run i).success = true) →
      (run j).success = false →
      (render_views_matrix_trace run).1 =
        (["Top", "Bottom", "Front", "Back", "Left", "Right", "Isometric"] : List String).take (j + 1) ∧
      (render_views_matrix_trace run).1.length = j + 1 ∧
      render_views_matrix_outcome run =
        .error ("Failed to render view " ++
          (["Top", "Bottom", "Front", "Back", "Left", "Right", "Isometric"] : List String).getD j "" ++
          ".\nError Output:\n" ++ (run j).stderr)) := by
  constructor
  · intro h
    have hall : ∀ i, i < viewsList.length → (run (0 + i)).success = true := by
      intro i hi
      rw [Nat.zero_add]
      exact h i (by simpa [viewsList] using hi)
    have htr : render_views_matrix_trace run =
        (["Top", "Bottom", "Front", "Back", "Left", "Right", "Isometric"], none) := by
      rw [render_views_matrix_trace, renderLoop_all run viewsList 0 hall]
      rfl
    refine ⟨htr, ?_⟩
    rw [render_views_matrix_outcome, htr]
  · intro j hj hs hf
    have htr : render_views_matrix_trace run =
        ((["Top", "Bottom", "Front", "Back", "Left", "Right", "Isometric"] : List String).take (j + 1),
          some ((["Top", "Bottom", "Front", "Back", "Left", "Right", "Isometric"] : List String).getD j "",
            (run j).stderr)) := by
      rw [render_views_matrix_trace,
        renderLoop_fail run viewsList 0 j (by simpa [viewsList] using hj)
          (fun i hi => by rw [Nat.zero_add]; exact hs i hi)
          (by rw [Nat.zero_add]; exact hf)]
      rw [Nat.zero_add]
      rfl
    refine ⟨?_, ?_, ?_⟩
    · rw [htr]
    · rw [htr]
      simp only [List.length_take, List.length_cons, List.length_nil]
      omega
    · rw [render_views_matrix_outcome, htr]

/-- Claim C3 witness: with a renderer that always succeeds, the trace is the
seven views in order with no failure. -/
theorem render_matrix_order_and_abort_witness :
    render_views_matrix_trace (fun _ => ⟨true, "", ""⟩) =
      (["Top", "Bottom", "Front", "Back", "Left", "Right", "Isometric"], none) :=
  ((render_matrix_order_and_abort (fun _ => ⟨true, "", ""⟩)).1
    (fun _ _ => rfl)).1

/-- Claim C4: framing returns the neutral default center `(0,0,0)` with
distance `500` on export failure and on an empty mesh, and on the cube with
bounding box `[0,10]^3` returns center `(5,5,5)` and distance
`sqrt 300 * 2.5` — with the diagonal `sqrt 300` in `(17.32, 17.3206)` and
the distance in `(43.3, 43.302)`. -/
theorem camera_defaults_and_cube_framing :
    calculate_camera_parameters .exportFailed = (0, 0, 0, 500) ∧
    calculate_camera_parameters (.meshData []) = (0, 0, 0, 500) ∧
    calculate_camera_parameters
        (.meshData [((0 : ℝ), (0 : ℝ), (0 : ℝ)), ((10 : ℝ), (10 : ℝ), (10 : ℝ))]) =
      (5, 5, 5, Real.sqrt 300 * 2.5) ∧
    17.32 < Real.sqrt 300 ∧ Real.sqrt 300 < 17.3206 ∧
    43.3 < Real.sqrt 300 * 2.5 ∧ Real.sqrt 300 * 2.5 < 43.302 := by
  have hlow : (17.32 : ℝ) < Real.sqrt 300 :=
    (Real.lt_sqrt (by norm_num)).mpr (by norm_num)
  have hhigh : Real.sqrt 300 < 17.3206 :=
    (Real.sqrt_lt' (by norm_num)).mpr (by norm_num)
  have hne : Real.sqrt 300 ≠ 0 :=
    ne_of_gt (Real.sqrt_pos.mpr (by norm_num))
  refine ⟨rfl, rfl, ?_, hlow, hhigh, by linarith, by linarith⟩
  have harg : meshDiagonal ((0 : ℝ), (0 : ℝ), (0 : ℝ)) [((10 : ℝ), (10 : ℝ), (10 : ℝ))] =
      Real.sqrt 300 := by
    simp only [meshDiagonal, foldMin, foldMax, List.foldl_cons, List.foldl_nil]
    norm_num [min_def, max_def]
  simp only [calculate_camera_parameters, harg, hne, if_false]
  simp only [foldMin, foldMax, List.foldl_cons, List.foldl_nil]
  norm_num [min_def, max_def]

/-- Claim C5 (counterexample): the single-point mesh has diagonal zero, and
the derived distance there is `100`, not the claimed fallback `500`. -/
theorem camera_distance_zero_diagonal_cex :
    calculate_camera_parameters (.meshData [((1 : ℝ), (2 : ℝ), (3 : ℝ))]) =
      (1, 2, 3, 100) ∧ (100 : ℝ) ≠ 500 := by
  constructor
  · have harg : meshDiagonal ((1 : ℝ), (2 : ℝ), (3 : ℝ)) ([] : List (ℝ × ℝ × ℝ)) = 0 := by
      simp only [meshDiagonal, foldMin, foldMax, List.foldl_nil]
      norm_num
    simp only [calculate_camera_parameters, harg, if_pos]
    simp only [foldMin, foldMax, List.foldl_nil]
    norm_num
  · norm_num

/-- Claim C5 (amended): when the distance is derived, it is `500` on export
failure, analysis error or an empty mesh ("unobtainable"), `100` when the
mesh's bounding-box diagonal is exactly zero, and `diagonal * 2.5`
otherwise. -/
theorem camera_distance_derivation :
    calcDist .exportFailed = 500 ∧
    calcDist .analysisError = 500 ∧
    calcDist (.meshData []) = 500 ∧
    (∀ (v : ℝ × ℝ × ℝ) (vs : List (ℝ × ℝ × ℝ)),
      (meshDiagonal v vs = 0 → calcDist (.meshData (v :: vs)) = 100) ∧
      (meshDiagonal v vs ≠ 0 →
        calcDist (.meshData (v :: vs)) = meshDiagonal v vs * 2.5)) := by
  refine ⟨rfl, rfl, rfl, ?_⟩
  intro v vs
  constructor
  · intro h
    simp [calcDist, calculate_camera_parameters, h]
  · intro h
    simp [calcDist, calculate_camera_parameters, h]

/-- Claim C5 witness: the derived distance of the single-point mesh, whose
diagonal is zero. -/
theorem camera_distance_derivation_witness :
    calcDist (.meshData [((1 : ℝ), (2 : ℝ), (3 : ℝ))]) = 100 :=
  (camera_distance_derivation.2.2.2 ((1 : ℝ), (2 : ℝ), (3 : ℝ)) []).1 (by
    simp only [meshDiagonal, foldMin, foldMax, List.foldl_nil]
    norm_num)

/-- Claim C7 (counterexample): a caller-supplied distance of `0` is passed
through to the emitted camera argument unchanged, so the emitted distance is
not strictly positive. -/
theorem camera_distance_user_zero_cex :
    render_preview_camera .exportFailed none none none (some 0) =
      some (0, 0, 0, 60, 0, 135, 0) ∧
    ¬ (0 : ℝ) < camDist (0, 0, 0, 60, 0, 135, 0) := by
  constructor
  · simp [render_preview_camera, calculate_camera_parameters]
  · simp [camDist]

/-- Claim C7 (amended): whenever the camera distance is derived rather than
caller-supplied, the distance emitted by `render_preview` and the distance
used by `render_views_matrix` are strictly positive (the derived value is
500, 100, or `diagonal * 2.5` with a positive diagonal — never zero). -/
theorem camera_distance_positive_when_derived :
    (∀ (m : MeshResult) (rx? ry? rz? : Option ℝ) (t : ℝ × ℝ × ℝ × ℝ × ℝ × ℝ × ℝ),
      render_preview_camera m rx? ry? rz? none = some t → 0 < camDist t) ∧
    (∀ m : MeshResult, 0 < render_views_matrix_dist m none) := by
  constructor
  · intro m rx? ry? rz? t h
    rw [render_preview_camera] at h
    by_cases hcond : (rx?.isSome || ry?.isSome || rz?.isSome ||
        (none : Option ℝ).isSome) = true
    · rw [if_pos hcond] at h
      obtain rfl := (Option.some_inj.mp h).symm
      simpa [camDist, calcDist] using calcDist_pos m
    · rw [if_neg hcond] at h
      exact absurd h (by simp)
  · intro m
    rw [render_views_matrix_dist]
    simpa [calcDist] using calcDist_pos m

/-- Claim C7 witness: a derived-distance camera argument (rotation given,
distance omitted) has a strictly positive distance. -/
theorem camera_distance_positive_when_derived_witness :
    0 < camDist (0, 0, 0, 60, 0, 135, 500) :=
  camera_distance_positive_when_derived.1 .exportFailed (some 60) none none
    (0, 0, 0, 60, 0, 135, 500)
    (by simp [render_preview_camera, calculate_camera_parameters])

/-- Claim C8 (counterexample): `get_library_paths` checks only
`os.path.exists`, so an existing configured path that is not a directory is
still returned. -/
theorem library_paths_nondirectory_cex :
    (⟨true, ["data", "libfile"]⟩ : PyPath) ∈
      get_library_paths ⟨true, []⟩ (some ⟨true, ["data", "libfile"]⟩)
        ⟨true, ["home", "u"]⟩ .linux fileOnlyFS ∧
    fileOnlyFS.isDir ⟨true, ["data", "libfile"]⟩ = false := by
  decide

/-- Claim C8 (amended): for a fixed filesystem state, `get_library_paths`
returns a duplicate-free list whose membership is exactly "candidate path
that exists on disk" — a deterministic set, independent of any iteration
order (existence, not directory-ness, is what the code checks). -/
theorem library_paths_existing_dedup (cwd : PyPath) (env : Option PyPath)
    (home : PyPath) (plat : Platform) (fs : FS) :
    (get_library_paths cwd env home plat fs).Nodup ∧
    ∀ p : PyPath, p ∈ get_library_paths cwd env home plat fs ↔
      p ∈ libraryCandidates cwd env home plat fs ∧ fs.pathExists p = true := by
  constructor
  · exact List.nodup_dedup _
  · intro p
    rw [get_library_paths, List.mem_dedup, List.mem_filter]

/-- Claim C9 (counterexample): content containing a carriage return does not
round-trip byte-identically: `a\r b` is written successfully but reads back
as `a\n b`, because text-mode reading applies universal-newline
translation. -/
theorem scad_roundtrip_carriage_return_cex :
    (write_scad_script ['\n'] ⟨true, ["w"]⟩ (fun _ => none) "m".toList
      ['a', '\r', 'b']).2 = true ∧
    read_scad_script ⟨true, ["w"]⟩
      (write_scad_script ['\n'] ⟨true, ["w"]⟩ (fun _ => none) "m".toList
        ['a', '\r', 'b']).1 "m".toList = .ok ['a', '\n', 'b'] ∧
    (['a', '\n', 'b'] : List Char) ≠ ['a', '\r', 'b'] := by
  refine ⟨rfl, rfl, by decide⟩

/-- Claim C9 (amended): writing a script and reading it back returns the
content with universal-newline translation applied; for content free of
carriage returns (and a successful write), the round trip is
byte-identical — on both LF and CRLF platforms. -/
theorem scad_roundtrip_crlf_free (linesep : List Char)
    (hl : linesep = ['\n'] ∨ linesep = ['\r', '\n']) (cwd : PyPath) (st : Store)
    (filename : List Char) (content : List Char) (hc : '\r' ∉ content)
    (hw : (write_scad_script linesep cwd st filename content).2 = true) :
    read_scad_script cwd (write_scad_script linesep cwd st filename content).1
      filename = .ok content := by
  rw [write_store_on_success linesep cwd st filename content hw]
  simp only [read_scad_script, setStore, eq_self_iff_true, if_true]
  exact congrArg Except.ok (universal_encode linesep hl content hc)

/-- Claim C9 witness: round trip of carriage-return-free content. -/
theorem scad_roundtrip_crlf_free_witness :
    read_scad_script ⟨true, ["w"]⟩
      (write_scad_script ['\n'] ⟨true, ["w"]⟩ (fun _ => none) "m".toList
        ['h', 'i']).1 "m".toList = .ok ['h', 'i'] :=
  scad_roundtrip_crlf_free ['\n'] (Or.inl rfl) ⟨true, ["w"]⟩ (fun _ => none)
    "m".toList ['h', 'i'] (by decide) (by decide)

end OpenSCADMCP
